import Mathlib

/-!
Verification of the validation-registry portion of the ts-decorators
repository (src/app.ts): the `Required` and `PositiveNumber` property
decorators that populate the global `registeredValidators` table, the
`validate` function that evaluates a candidate instance against the table,
and the `Product` price setter.

Host-language values are modelled by the inductive type `JSValue`.
Numbers are modelled as `Option ℚ`, where `none` stands for NaN: every
numeric value exercised by the program is an exact decimal, so rationals
are a faithful carrier, and NaN needs explicit representation because the
code compares with `>` and converts with `!!`, both of which treat NaN
specially.
-/

namespace App

/-- A runtime value of the host language, as far as this program observes
it: strings, numbers (with NaN as `none`), booleans, null and undefined. -/
inductive JSValue where
  | str : String → JSValue
  | num : Option ℚ → JSValue
  | bool : Bool → JSValue
  | null : JSValue
  | undefined : JSValue
  deriving DecidableEq

/-- Truthiness of a value, the meaning of the `!!obj[prop]` test in
`validate`: false exactly for the empty string, zero, NaN, false, null and
undefined. -/
def truthy : JSValue → Bool
  | .str s => s != ""
  | .num (some q) => decide (q ≠ 0)
  | .num none => false
  | .bool b => b
  | .null => false
  | .undefined => false

/-- Decimal digit-string parser backing `strToNumber`. -/
def parseDigits (cs : List Char) : Option ℕ :=
  if cs ≠ [] ∧ cs.all Char.isDigit then
    some (cs.foldl (fun acc c => acc * 10 + (c.toNat - 48)) 0)
  else none

/-- The host-language conversion of a string to a number, for the decimal
integer forms this program can produce: the empty string converts to zero,
an optional minus sign followed by decimal digits converts to the signed
integer value, and anything else is NaN (`none`). -/
def strToNumber (s : String) : Option ℚ :=
  match s.toList with
  | [] => some 0
  | c :: rest =>
      if c = '-' then (parseDigits rest).map (fun n => -(n : ℚ))
      else (parseDigits (c :: rest)).map (fun n => (n : ℚ))

/-- The host-language numeric conversion applied to the left operand of
`obj[prop] > 0`. -/
def toNumber : JSValue → Option ℚ
  | .str s => strToNumber s
  | .num n => n
  | .bool b => some (if b then 1 else 0)
  | .null => some 0
  | .undefined => none

/-- Numeric `>` of the host language: false whenever either side is NaN. -/
def numGt (a b : Option ℚ) : Bool :=
  match a, b with
  | some x, some y => decide (y < x)
  | _, _ => false

/-- The test `obj[prop] > 0` from the `"Positive"` case of `validate`. -/
def jsGtZero (v : JSValue) : Bool :=
  numGt (toNumber v) (some 0)

/-- Inner layer of `ValidatorConfig`: field name to list of rule names,
as an insertion-ordered association list (the key order of a JS object). -/
abbrev FieldRules := List (String × List String)

/-- The type of the global `registeredValidators` table: entity type name
to field rules. -/
abbrev ValidatorConfig := List (String × FieldRules)

/-- Key lookup in a JS object modelled as an association list:
`o[key]`, `undefined` (here `none`) when absent. -/
def alistGet {α : Type} (key : String) : List (String × α) → Option α
  | [] => none
  | (k, v) :: rest => if k = key then some v else alistGet key rest

/-- Key update in a JS object modelled as an association list: an existing
key keeps its position and gets the new value, a fresh key is appended.
This is the effect on keys of both `{...old, [key]: val}` and
`o[key] = val`. -/
def alistSet {α : Type} (key : String) (val : α) : List (String × α) → List (String × α)
  | [] => [(key, val)]
  | (k, v) :: rest =>
      if k = key then (key, val) :: rest else (k, v) :: alistSet key val rest

/-- The rule list the table currently holds for an (entity type, field)
pair; empty when either level of the table has no entry. -/
def rulesFor (reg : ValidatorConfig) (t f : String) : List String :=
  (alistGet f ((alistGet t reg).getD [])).getD []

/-- The `Required` property decorator, acting on the table:
`registeredValidators[T] = { ...registeredValidators[T], [propName]: ["Required"] }`
with `T = target.constructor.name`. -/
def Required (ctorName propName : String) (reg : ValidatorConfig) : ValidatorConfig :=
  alistSet ctorName
    (alistSet propName ["Required"] ((alistGet ctorName reg).getD [])) reg

/-- The `PositiveNumber` property decorator, acting on the table:
`registeredValidators[T] = { ...registeredValidators[T], [propName]: ["Positive"] }`. -/
def PositiveNumber (ctorName propName : String) (reg : ValidatorConfig) : ValidatorConfig :=
  alistSet ctorName
    (alistSet propName ["Positive"] ((alistGet ctorName reg).getD [])) reg

/-- A candidate instance: its constructor name and its own enumerable
properties. -/
structure Candidate where
  ctorName : String
  fields : List (String × JSValue)
  deriving DecidableEq

/-- Property access `obj[prop]` on a candidate instance: `undefined` for a
missing property, never an exception. -/
def getField (obj : Candidate) (prop : String) : JSValue :=
  (alistGet prop obj.fields).getD JSValue.undefined

/-- One iteration of the `switch (validator)` body of `validate`:
`"Required"` conjoins truthiness, `"Positive"` conjoins the positivity
test, any other string leaves `isValid` unchanged (no default case). -/
def evalRule (v : JSValue) (r : String) (acc : Bool) : Bool :=
  if r = "Required" then acc && truthy v
  else if r = "Positive" then acc && jsGtZero v
  else acc

/-- The loop `for (const validator of objValidatorConfig[prop])`. -/
def evalRules (v : JSValue) (acc : Bool) : List String → Bool
  | [] => acc
  | r :: rest => evalRules v (evalRule v r acc) rest

/-- The loop `for (const prop in objValidatorConfig)`. -/
def evalProps (obj : Candidate) (acc : Bool) : FieldRules → Bool
  | [] => acc
  | (p, rules) :: rest => evalProps obj (evalRules (getField obj p) acc rules) rest

/-- The `validate` function: permissive `true` when the table has no entry
for the constructor name of the object, otherwise the conjunction loop
starting from `isValid = true`. -/
def validate (reg : ValidatorConfig) (obj : Candidate) : Bool :=
  match alistGet obj.ctorName reg with
  | none => true
  | some cfg => evalProps obj true cfg

/-- The switch body again, but in an exception monad, to make explicit
that no branch of it can throw. -/
def evalRuleE (v : JSValue) (r : String) (acc : Bool) : Except String Bool :=
  if r = "Required" then Except.ok (acc && truthy v)
  else if r = "Positive" then Except.ok (acc && jsGtZero v)
  else Except.ok acc

/-- The inner `for...of` loop of `validate` in the exception monad. -/
def evalRulesE (v : JSValue) (acc : Bool) : List String → Except String Bool
  | [] => Except.ok acc
  | r :: rest => do
      let acc2 ← evalRuleE v r acc
      evalRulesE v acc2 rest

/-- The outer `for...in` loop of `validate` in the exception monad. -/
def evalPropsE (obj : Candidate) (acc : Bool) : FieldRules → Except String Bool
  | [] => Except.ok acc
  | (p, rules) :: rest => do
      let acc2 ← evalRulesE (getField obj p) acc rules
      evalPropsE obj acc2 rest

/-- `validate` in an exception monad over its whole input space. The one
operation of its body that the host language can make throw is the
property chain `obj.constructor.name` when `obj` is null or undefined
(modelled by `none`); on an object every step is total. -/
def validateE (reg : ValidatorConfig) : Option Candidate → Except String Bool
  | none => Except.error "TypeError: cannot read properties of a missing object"
  | some obj =>
      match alistGet obj.ctorName reg with
      | none => Except.ok true
      | some cfg => evalPropsE obj true cfg

/-- A rule registration step: which decorator ran, on which constructor
name and property name. -/
inductive RegAction where
  | required (ctorName propName : String)
  | positiveNumber (ctorName propName : String)
  deriving DecidableEq

/-- The (entity type, field) pair a registration step targets. -/
def RegAction.target : RegAction → String × String
  | .required t f => (t, f)
  | .positiveNumber t f => (t, f)

/-- The rule name a registration step stores. -/
def RegAction.ruleName : RegAction → String
  | .required _ _ => "Required"
  | .positiveNumber _ _ => "Positive"

/-- Run one registration step on the table. -/
def RegAction.run : RegAction → ValidatorConfig → ValidatorConfig
  | .required t f, reg => Required t f reg
  | .positiveNumber t f, reg => PositiveNumber t f reg

/-- Run a sequence of registration steps on the table, first to last. -/
def applyAll (acts : List RegAction) (reg : ValidatorConfig) : ValidatorConfig :=
  acts.foldl (fun r a => a.run r) reg

/-- The observable state of a `Product`: its title and its private
`_price` backing field (a host-language number, so possibly NaN). -/
structure Product where
  title : String
  _price : Option ℚ
  deriving DecidableEq

/-- The `price` setter of `Product`: `if (val > 0) { this._price = val; }
else { throw new Error("Invalid price - must be positive"); }`. The state
update happens only on the `ok` branch; the error branch carries no
modified state. -/
def setPrice (p : Product) (val : Option ℚ) : Except String Product :=
  if numGt val (some 0) then Except.ok { p with _price := val }
  else Except.error "Invalid price - must be positive"

/-! ### Association-list lemmas -/

theorem alistGet_set_self {α : Type} (key : String) (val : α) (l : List (String × α)) :
    alistGet key (alistSet key val l) = some val := by
  induction l with
  | nil => simp [alistSet, alistGet]
  | cons hd tl ih =>
      obtain ⟨k, v⟩ := hd
      by_cases h : k = key
      · simp [alistSet, alistGet, h]
      · simp [alistSet, alistGet, h, ih]

theorem alistGet_set_ne {α : Type} (key key' : String) (val : α) (l : List (String × α))
    (h : key' ≠ key) : alistGet key' (alistSet key val l) = alistGet key' l := by
  induction l with
  | nil => simp [alistSet, alistGet, Ne.symm h]
  | cons hd tl ih =>
      obtain ⟨k, v⟩ := hd
      by_cases hk : k = key
      · subst hk
        simp [alistSet, alistGet, Ne.symm h]
      · simp [alistSet, alistGet, hk, ih]

theorem alistGet_mem {α : Type} {key : String} {val : α} {l : List (String × α)}
    (h : alistGet key l = some val) : (key, val) ∈ l := by
  induction l with
  | nil => simp [alistGet] at h
  | cons hd tl ih =>
      obtain ⟨k, v⟩ := hd
      by_cases hk : k = key
      · subst hk
        simp [alistGet] at h
        subst h
        exact List.mem_cons_self _ _
      · simp [alistGet, hk] at h
        exact List.mem_cons_of_mem _ (ih h)

/-! ### Conjunction-loop lemmas for validate -/

theorem evalRule_false (v : JSValue) (r : String) : evalRule v r false = false := by
  unfold evalRule
  split_ifs <;> simp

theorem evalRule_fail {v : JSValue} {r : String} (h : evalRule v r true = false)
    (acc : Bool) : evalRule v r acc = false := by
  cases acc
  · exact evalRule_false v r
  · exact h

theorem evalRules_false (v : JSValue) (rules : List String) :
    evalRules v false rules = false := by
  induction rules with
  | nil => rfl
  | cons r rest ih => simpa [evalRules, evalRule_false] using ih

theorem evalRules_mem_false {v : JSValue} {r : String} {rules : List String}
    (hmem : r ∈ rules) (hfail : evalRule v r true = false) (acc : Bool) :
    evalRules v acc rules = false := by
  induction rules generalizing acc with
  | nil => simp at hmem
  | cons a rest ih =>
      rcases List.mem_cons.mp hmem with heq | htl
      · subst heq
        simp only [evalRules, evalRule_fail hfail acc]
        exact evalRules_false v rest
      · exact ih htl _

theorem evalProps_false (obj : Candidate) (cfg : FieldRules) :
    evalProps obj false cfg = false := by
  induction cfg with
  | nil => rfl
  | cons hd rest ih =>
      obtain ⟨p, rules⟩ := hd
      simpa [evalProps, evalRules_false] using ih

theorem evalProps_mem_false {obj : Candidate} {p : String} {rules : List String}
    {cfg : FieldRules} (hmem : (p, rules) ∈ cfg)
    (hfail : ∀ acc, evalRules (getField obj p) acc rules = false) (acc : Bool) :
    evalProps obj acc cfg = false := by
  induction cfg generalizing acc with
  | nil => simp at hmem
  | cons hd rest ih =>
      obtain ⟨p', rules'⟩ := hd
      rcases List.mem_cons.mp hmem with heq | htl
      · obtain ⟨hp, hr⟩ := Prod.mk.injEq .. ▸ heq
        subst hp; subst hr
        simp only [evalProps, hfail acc]
        exact evalProps_false obj rest
      · exact ih htl _

/-- Soundness of a single failing rule: if some rule registered for a
field of the object's type has a failing predicate on the field's value,
`validate` returns false. -/
theorem validate_false_of_fail {reg : ValidatorConfig} {obj : Candidate} {p r : String}
    (hmem : r ∈ rulesFor reg obj.ctorName p)
    (hfail : evalRule (getField obj p) r true = false) :
    validate reg obj = false := by
  unfold validate
  cases hreg : alistGet obj.ctorName reg with
  | none => simp [rulesFor, hreg, alistGet] at hmem
  | some cfg =>
      cases hcfg : alistGet p cfg with
      | none => simp [rulesFor, hreg, hcfg] at hmem
      | some rules =>
          simp only [rulesFor, hreg, Option.getD_some, hcfg] at hmem
          exact evalProps_mem_false (alistGet_mem hcfg)
            (fun acc => evalRules_mem_false hmem hfail acc) true

/-! ### Exception-monad correspondence -/

theorem evalRuleE_ok (v : JSValue) (r : String) (acc : Bool) :
    evalRuleE v r acc = Except.ok (evalRule v r acc) := by
  unfold evalRuleE evalRule
  split_ifs <;> rfl

theorem evalRulesE_ok (v : JSValue) (rules : List String) (acc : Bool) :
    evalRulesE v acc rules = Except.ok (evalRules v acc rules) := by
  induction rules generalizing acc with
  | nil => rfl
  | cons r rest ih =>
      simp only [evalRulesE, evalRules, evalRuleE_ok, bind, Except.bind, ih]

theorem evalPropsE_ok (obj : Candidate) (cfg : FieldRules) (acc : Bool) :
    evalPropsE obj acc cfg = Except.ok (evalProps obj acc cfg) := by
  induction cfg generalizing acc with
  | nil => rfl
  | cons hd rest ih =>
      obtain ⟨p, rules⟩ := hd
      simp only [evalPropsE, evalProps, evalRulesE_ok, bind, Except.bind, ih]

/-! ### Registration lemmas -/

theorem rulesFor_Required_self (t f : String) (reg : ValidatorConfig) :
    rulesFor (Required t f reg) t f = ["Required"] := by
  unfold rulesFor Required
  rw [alistGet_set_self, Option.getD_some, alistGet_set_self, Option.getD_some]

theorem rulesFor_PositiveNumber_self (t f : String) (reg : ValidatorConfig) :
    rulesFor (PositiveNumber t f reg) t f = ["Positive"] := by
  unfold rulesFor PositiveNumber
  rw [alistGet_set_self, Option.getD_some, alistGet_set_self, Option.getD_some]

theorem rulesFor_Required_frame (t f g : String) (reg : ValidatorConfig)
    (h : g ≠ f) : rulesFor (Required t f reg) t g = rulesFor reg t g := by
  unfold rulesFor Required
  rw [alistGet_set_self, Option.getD_some, alistGet_set_ne _ _ _ _ h]

theorem rulesFor_PositiveNumber_frame (t f g : String) (reg : ValidatorConfig)
    (h : g ≠ f) : rulesFor (PositiveNumber t f reg) t g = rulesFor reg t g := by
  unfold rulesFor PositiveNumber
  rw [alistGet_set_self, Option.getD_some, alistGet_set_ne _ _ _ _ h]

/-- One registration step targeting (t, f) leaves exactly the singleton of
its own rule as the rule list of (t, f), whatever the prior table held. -/
theorem rulesFor_run_self (a : RegAction) (t f : String) (reg : ValidatorConfig)
    (h : a.target = (t, f)) :
    rulesFor (a.run reg) t f = [a.ruleName] := by
  cases a with
  | required t' f' =>
      obtain ⟨ht, hf⟩ := Prod.mk.injEq .. ▸ h
      subst ht; subst hf
      exact rulesFor_Required_self _ _ reg
  | positiveNumber t' f' =>
      obtain ⟨ht, hf⟩ := Prod.mk.injEq .. ▸ h
      subst ht; subst hf
      exact rulesFor_PositiveNumber_self _ _ reg

/-! ### Claim theorems -/

/-- C1: the active registration code does not append. Evaluated at the
failing input: applying `Required` and then `PositiveNumber` to the pair
(Course, price) leaves the rule list `["Positive"]` alone — the rule of
the second registration replaced the list instead of being appended to it,
so the previously registered Required rule was deleted from the table. -/
theorem c1_registration_overwrites_not_appends :
    rulesFor (PositiveNumber "Course" "price" (Required "Course" "price" []))
        "Course" "price" = ["Positive"] ∧
    rulesFor (PositiveNumber "Course" "price" (Required "Course" "price" []))
        "Course" "price" ≠ ["Required", "Positive"] := by
  exact ⟨rfl, by decide⟩

/-- C2: evaluated at the failing input. Registering PositiveNumber and
then Required on (Course, price) leaves only the Required rule in the
table, so `validate` accepts an instance with price -5, where the claim
demands rejection because the PositiveNumber predicate fails on -5. -/
theorem c2_conjunction_fails_at_minus_five :
    validate (Required "Course" "price" (PositiveNumber "Course" "price" []))
      ⟨"Course", [("price", JSValue.num (some (-5)))]⟩ = true := by
  decide

/-- C3: registration is a frame over the other fields of the same type:
registering either rule for field f of type t leaves the rule list of any
distinct field g of t unchanged. -/
theorem c3_other_fields_framed (reg : ValidatorConfig) (t f g : String) (h : g ≠ f) :
    rulesFor (Required t f reg) t g = rulesFor reg t g ∧
    rulesFor (PositiveNumber t f reg) t g = rulesFor reg t g :=
  ⟨rulesFor_Required_frame t f g reg h, rulesFor_PositiveNumber_frame t f g reg h⟩

/-- Witness for C3 at a concrete table: registering a rule for price does
not disturb the rules held for title. -/
theorem c3_other_fields_framed_witness :
    rulesFor (Required "Course" "price" (Required "Course" "title" [])) "Course" "title"
      = rulesFor (Required "Course" "title" []) "Course" "title" ∧
    rulesFor (PositiveNumber "Course" "price" (Required "Course" "title" [])) "Course" "title"
      = rulesFor (Required "Course" "title" []) "Course" "title" :=
  c3_other_fields_framed (Required "Course" "title" []) "Course" "price" "title" (by decide)

/-- C4: in the active registration code, after a sequence of two or more
registrations all targeting the same (entityType, field), the table holds
exactly the singleton rule list of the last registration for that field. -/
theorem c4_only_last_rule_retained (reg : ValidatorConfig) (rs : List RegAction)
    (a : RegAction) (t f : String) (hrs : rs ≠ [])
    (hall : ∀ x ∈ rs, x.target = (t, f)) (ha : a.target = (t, f)) :
    rulesFor (applyAll (rs ++ [a]) reg) t f = [a.ruleName] := by
  have hsplit : applyAll (rs ++ [a]) reg = a.run (applyAll rs reg) := by
    simp [applyAll, List.foldl_append]
  rw [hsplit]
  exact rulesFor_run_self a t f _ ha

/-- Witness for C4: Required then PositiveNumber on (Course, price) leaves
exactly the rule list of the last registration. -/
theorem c4_only_last_rule_retained_witness :
    rulesFor (applyAll ([RegAction.required "Course" "price"] ++
        [RegAction.positiveNumber "Course" "price"]) []) "Course" "price"
      = [(RegAction.positiveNumber "Course" "price").ruleName] :=
  c4_only_last_rule_retained [] [RegAction.required "Course" "price"]
    (RegAction.positiveNumber "Course" "price") "Course" "price"
    (by decide) (by decide) (by decide)

/-- C5: a field holding a Required rule makes `validate` return false when
the field value on the instance is the empty string, zero, null,
undefined, or false; and the Required predicate holds on every truthy
value. -/
theorem c5_required_rejects_falsy :
    (∀ (reg : ValidatorConfig) (obj : Candidate) (p : String),
        "Required" ∈ rulesFor reg obj.ctorName p →
        (getField obj p = JSValue.str "" ∨ getField obj p = JSValue.num (some 0) ∨
         getField obj p = JSValue.null ∨ getField obj p = JSValue.undefined ∨
         getField obj p = JSValue.bool false) →
        validate reg obj = false) ∧
    (∀ v : JSValue, truthy v = true → evalRule v "Required" true = true) := by
  constructor
  · intro reg obj p hmem hval
    apply validate_false_of_fail hmem
    rcases hval with h | h | h | h | h <;> rw [h] <;> decide
  · intro v hv
    simp [evalRule, hv]

/-- Witness for C5: an empty title fails a Required rule on title, and a
non-empty string passes the Required predicate. -/
theorem c5_required_rejects_falsy_witness :
    validate (Required "Course" "title" []) ⟨"Course", [("title", JSValue.str "")]⟩ = false ∧
    evalRule (JSValue.str "Algebra") "Required" true = true :=
  ⟨c5_required_rejects_falsy.1 (Required "Course" "title" [])
      ⟨"Course", [("title", JSValue.str "")]⟩ "title" (by decide) (Or.inl (by decide)),
   c5_required_rejects_falsy.2 (JSValue.str "Algebra") (by decide)⟩

/-- C6: a field holding a Positive rule makes `validate` return false when
the field holds a numeric value less than or equal to zero; and on numeric
values the Positive predicate holds exactly for values strictly greater
than zero. -/
theorem c6_positive_rejects_nonpositive :
    (∀ (reg : ValidatorConfig) (obj : Candidate) (p : String) (q : ℚ),
        "Positive" ∈ rulesFor reg obj.ctorName p →
        getField obj p = JSValue.num (some q) → q ≤ 0 →
        validate reg obj = false) ∧
    (∀ q : ℚ, (evalRule (JSValue.num (some q)) "Positive" true = true) ↔ 0 < q) := by
  constructor
  · intro reg obj p q hmem hval hq
    apply validate_false_of_fail hmem
    rw [hval]
    have hnot : ¬ (0 : ℚ) < q := not_lt.mpr hq
    simp [evalRule, jsGtZero, toNumber, numGt, hnot]
  · intro q
    simp [evalRule, jsGtZero, toNumber, numGt]

/-- Witness for C6: a price of -1 fails a Positive rule on price, and the
Positive predicate on 10 reduces to the strict positivity of 10. -/
theorem c6_positive_rejects_nonpositive_witness :
    validate (PositiveNumber "Course" "price" [])
      ⟨"Course", [("price", JSValue.num (some (-1)))]⟩ = false ∧
    (evalRule (JSValue.num (some 10)) "Positive" true = true ↔ (0 : ℚ) < 10) :=
  ⟨c6_positive_rejects_nonpositive.1 (PositiveNumber "Course" "price" [])
      ⟨"Course", [("price", JSValue.num (some (-1)))]⟩ "price" (-1)
      (by decide) (by decide) (by norm_num),
   c6_positive_rejects_nonpositive.2 10⟩

/-- C7: a candidate instance whose constructor name has no entry in the
table is accepted whatever its field values are. -/
theorem c7_unregistered_type_accepted (reg : ValidatorConfig) (obj : Candidate)
    (h : alistGet obj.ctorName reg = none) : validate reg obj = true := by
  unfold validate
  rw [h]

/-- Witness for C7: a Person instance is accepted by a table that only
registers rules for Course, even with an empty title field. -/
theorem c7_unregistered_type_accepted_witness :
    validate (Required "Course" "title" [])
      ⟨"Person", [("title", JSValue.str "")]⟩ = true :=
  c7_unregistered_type_accepted (Required "Course" "title" [])
    ⟨"Person", [("title", JSValue.str "")]⟩ (by decide)

/-- C8: on every object input, `validate` run in the exception monad
reaches the ok branch with its boolean result — no loop iteration and no
lookup can throw, so failure is communicated only through the returned
boolean. -/
theorem c8_validate_never_throws (reg : ValidatorConfig) (obj : Candidate) :
    validateE reg (some obj) = Except.ok (validate reg obj) := by
  cases h : alistGet obj.ctorName reg with
  | none => simp [validateE, validate, h]
  | some cfg => simp [validateE, validate, h, evalPropsE_ok]

/-- C9: the price setter stores a strictly positive value in the backing
field and throws the error "Invalid price - must be positive" on a value
less than or equal to zero; the error branch performs no state update, so
the backing field is untouched there. -/
theorem c9_price_setter_guards (p : Product) (q : ℚ) :
    (0 < q → setPrice p (some q) = Except.ok { p with _price := some q }) ∧
    (q ≤ 0 → setPrice p (some q) = Except.error "Invalid price - must be positive") := by
  constructor
  · intro h
    simp [setPrice, numGt, h]
  · intro h
    simp [setPrice, numGt, not_lt.mpr h]

/-- Witness for C9: setting a price of 5 stores it, setting -2 throws. -/
theorem c9_price_setter_guards_witness :
    setPrice ⟨"book", some 1⟩ (some 5) = Except.ok ⟨"book", some 5⟩ ∧
    setPrice ⟨"book", some 1⟩ (some (-2)) = Except.error "Invalid price - must be positive" :=
  ⟨(c9_price_setter_guards ⟨"book", some 1⟩ 5).1 (by norm_num),
   (c9_price_setter_guards ⟨"book", some 1⟩ (-2)).2 (by norm_num)⟩

/-- C10: a field holding a Positive rule makes `validate` return false
when the field value is NaN: the strict comparison with zero rejects NaN
even though NaN is neither below nor above zero. -/
theorem c10_positive_rejects_nan (reg : ValidatorConfig) (obj : Candidate) (p : String)
    (hmem : "Positive" ∈ rulesFor reg obj.ctorName p)
    (hval : getField obj p = JSValue.num none) :
    validate reg obj = false := by
  apply validate_false_of_fail hmem
  rw [hval]
  decide

/-- Witness for C10: a Course built from a non-numeric form price — the
unary plus of the string gives NaN — is rejected by the table the Course
class declarations build. -/
theorem c10_positive_rejects_nan_witness :
    validate (PositiveNumber "Course" "price" (Required "Course" "title" []))
      ⟨"Course", [("title", JSValue.str "Algebra"),
                  ("price", JSValue.num (strToNumber "abc"))]⟩ = false :=
  c10_positive_rejects_nan
    (PositiveNumber "Course" "price" (Required "Course" "title" []))
    ⟨"Course", [("title", JSValue.str "Algebra"),
                ("price", JSValue.num (strToNumber "abc"))]⟩ "price"
    (by decide) (by decide)

end App
